import Mathlib

/-!
Verification of the operation-result cache layer of the rudd BDD engine
(`cache.go`): slot tables (`data4ncache`, `data3ncache`), the specialized
caches (apply, ite, quant, appex, replace), the quantification variable-set
register (`quantset2cache`), and the cache manager (`cachereset`).

Go semantics conventions used throughout the embedding:
- Go `int` is modelled as `Int`; Go `%` and `/` are truncated
  (`Int.tmod` / `Int.tdiv`).
- Go slices are modelled as `List`; an out-of-bounds index (a runtime panic
  in Go) is modelled by an `Option` result being `none`.
- `int32` fields (`quantsetID`, the `quantset` entries) are modelled as `Int`
  together with the explicit comparison against `math.MaxInt32` that the code
  performs; the code keeps the counter strictly below `MaxInt32`, so no
  two-complement wrap is reachable.
-/

namespace Rudd

/-- Go `math.MaxInt32`. -/
def maxInt32 : Int := 2147483647

/-- Go integer division (truncated toward zero). -/
def goDiv (a b : Int) : Int := Int.tdiv a b

/-- Go remainder `%` (sign follows the dividend). -/
def goMod (a b : Int) : Int := Int.tmod a b

/-- Read a Go slice at an `int` index; `none` models the panic on a
negative or too-large index. -/
def listGetI {α : Type} (l : List α) (i : Int) : Option α :=
  if 0 ≤ i then l[i.toNat]? else none

/-- Write a Go slice at an `int` index; `none` models the panic on a
negative or too-large index. -/
def listSetI {α : Type} (l : List α) (i : Int) (v : α) : Option (List α) :=
  if 0 ≤ i ∧ i.toNat < l.length then some (l.set i.toNat v) else none

/-- Modelled from the spec: the prime-search utility `primeAtLeast(n) → prime ≥ n`
(`bdd_prime_gte`, an external collaborator whose source is not under `src/`);
capacities are "rounded up to a prime", so it returns the smallest prime `≥ n`. -/
def bdd_prime_gte (n : Int) : Nat :=
  Nat.find (Nat.exists_infinite_primes n.toNat)

/-- Modelled from the spec: the pairing function `pair(a,b,size) → index`
(an external collaborator whose source is not under `src/`): it combines two
integer operands plus the table size into a slot index. -/
def _PAIR (a b size : Int) : Int :=
  ((a + b) * (a + b + 1) / 2 + a) % size

/-- Modelled from the spec: the hash function `triple(a,b,c,size) → index`
(an external collaborator whose source is not under `src/`): it combines three
integer operands plus the table size into a slot index. -/
def _TRIPLE (a b c size : Int) : Int :=
  (((a + b) * (a + b + 1) / 2 + a + c) * ((a + b) * (a + b + 1) / 2 + a + c + 1) / 2 + c) % size

/-- Modelled from the spec: the debug flag gating the hit/miss counters
("gated behind a debug flag so that counter updates impose zero cost in
release builds"); release value. -/
def _DEBUG : Bool := false

/-- Modelled from the spec: the fixed operator code reserved for complement
("a fixed tag value reserved for complement", `op_not`, defined outside `src/`). -/
def op_not : Int := 10

/-- 4-field slot record `data4n`: `{res, a, b, c}`. -/
structure data4n where
  res : Int
  a : Int
  b : Int
  c : Int
deriving DecidableEq, Repr

/-- 3-field slot record `data3n`: `{res, a, c}`. -/
structure data3n where
  res : Int
  a : Int
  c : Int
deriving DecidableEq, Repr

/-- Slot table with 4-field records (`data4ncache`). -/
structure data4ncache where
  ratio : Int
  opHit : Int
  opMiss : Int
  table : List data4n
deriving DecidableEq, Repr

/-- Slot table with 3-field records (`data3ncache`). -/
structure data3ncache where
  ratio : Int
  opHit : Int
  opMiss : Int
  table : List data3n
deriving DecidableEq, Repr

/-- `data4ncache.reset`: mark every slot empty by setting its `a` field to `-1`. -/
def data4ncache.reset (bc : data4ncache) : data4ncache :=
  { bc with table := bc.table.map (fun e => { e with a := -1 }) }

/-- `data4ncache.resize`: if `ratio > 0`, reallocate to the prime size
`bdd_prime_gte (size / ratio)` (Go `make` zero-initializes); always reset. -/
def data4ncache.resize (bc : data4ncache) (size : Int) : data4ncache :=
  if bc.ratio > 0 then
    data4ncache.reset
      { bc with table := List.replicate (bdd_prime_gte (goDiv size bc.ratio)) ⟨0, 0, 0, 0⟩ }
  else
    bc.reset

/-- `data4ncache.init`: allocate `bdd_prime_gte size` zeroed slots, record the
ratio, and reset. -/
def data4ncache.init (bc : data4ncache) (size ratio : Int) : data4ncache :=
  data4ncache.reset
    { bc with table := List.replicate (bdd_prime_gte size) ⟨0, 0, 0, 0⟩, ratio := ratio }

/-- `data3ncache.reset`: mark every slot empty by setting its `a` field to `-1`. -/
def data3ncache.reset (bc : data3ncache) : data3ncache :=
  { bc with table := bc.table.map (fun e => { e with a := -1 }) }

/-- `data3ncache.resize`: if `ratio > 0`, reallocate to the prime size
`bdd_prime_gte (size / ratio)`; always reset. -/
def data3ncache.resize (bc : data3ncache) (size : Int) : data3ncache :=
  if bc.ratio > 0 then
    data3ncache.reset
      { bc with table := List.replicate (bdd_prime_gte (goDiv size bc.ratio)) ⟨0, 0, 0⟩ }
  else
    bc.reset

/-- `data3ncache.init`: allocate `bdd_prime_gte size` zeroed slots, record the
ratio, and reset. -/
def data3ncache.init (bc : data3ncache) (size ratio : Int) : data3ncache :=
  data3ncache.reset
    { bc with table := List.replicate (bdd_prime_gte size) ⟨0, 0, 0⟩, ratio := ratio }

/-- `applycache`: a 4-field slot table plus the current operator `op`. -/
structure applycache extends data4ncache where
  op : Int
deriving DecidableEq, Repr

/-- `itecache`: a plain 4-field slot table. -/
structure itecache extends data4ncache where
deriving DecidableEq, Repr

/-- `quantcache`: a 4-field slot table plus the current quantification id. -/
structure quantcache extends data4ncache where
  id : Int
deriving DecidableEq, Repr

/-- `appexcache`: a 4-field slot table plus the current operator and id. -/
structure appexcache extends data4ncache where
  op : Int
  id : Int
deriving DecidableEq, Repr

/-- `replacecache`: a 3-field slot table plus the current replace id. -/
structure replacecache extends data3ncache where
  id : Int
deriving DecidableEq, Repr

/-- Promoted `reset` on `applycache` (acts on the embedded slot table). -/
def applycache.reset (bc : applycache) : applycache :=
  { bc with todata4ncache := bc.todata4ncache.reset }

/-- Promoted `resize` on `applycache`. -/
def applycache.resize (bc : applycache) (size : Int) : applycache :=
  { bc with todata4ncache := bc.todata4ncache.resize size }

/-- Promoted `reset` on `itecache`. -/
def itecache.reset (bc : itecache) : itecache :=
  { bc with todata4ncache := bc.todata4ncache.reset }

/-- Promoted `resize` on `itecache`. -/
def itecache.resize (bc : itecache) (size : Int) : itecache :=
  { bc with todata4ncache := bc.todata4ncache.resize size }

/-- Promoted `reset` on `quantcache`. -/
def quantcache.reset (bc : quantcache) : quantcache :=
  { bc with todata4ncache := bc.todata4ncache.reset }

/-- Promoted `resize` on `quantcache`. -/
def quantcache.resize (bc : quantcache) (size : Int) : quantcache :=
  { bc with todata4ncache := bc.todata4ncache.resize size }

/-- Promoted `reset` on `appexcache`. -/
def appexcache.reset (bc : appexcache) : appexcache :=
  { bc with todata4ncache := bc.todata4ncache.reset }

/-- Promoted `resize` on `appexcache`. -/
def appexcache.resize (bc : appexcache) (size : Int) : appexcache :=
  { bc with todata4ncache := bc.todata4ncache.resize size }

/-- Promoted `reset` on `replacecache`. -/
def replacecache.reset (bc : replacecache) : replacecache :=
  { bc with todata3ncache := bc.todata3ncache.reset }

/-- Promoted `resize` on `replacecache`. -/
def replacecache.resize (bc : replacecache) (size : Int) : replacecache :=
  { bc with todata3ncache := bc.todata3ncache.resize size }

/-- `applycache.matchapply`: probe `_TRIPLE(left, right, op, len)`; hit iff all
three stored fields match, else the `-1` miss sentinel. (`_DEBUG` is false, so
the counter updates of the source are no-ops.) -/
def applycache.matchapply (bc : applycache) (left right : Int) : Option Int :=
  (listGetI bc.table (_TRIPLE left right bc.op bc.table.length)).map
    (fun entry =>
      if entry.a = left ∧ entry.b = right ∧ entry.c = bc.op then entry.res else -1)

/-- `applycache.setapply`: overwrite the slot at `_TRIPLE(left, right, op, len)`
and return `res`. -/
def applycache.setapply (bc : applycache) (left right res : Int) : Option (applycache × Int) :=
  (listSetI bc.table (_TRIPLE left right bc.op bc.table.length)
      { a := left, b := right, c := bc.op, res := res }).map
    (fun t => ({ bc with table := t }, res))

/-- `applycache.matchnot`: probe `n % len`; hit iff `a = n ∧ c = op_not`. -/
def applycache.matchnot (bc : applycache) (n : Int) : Option Int :=
  (listGetI bc.table (goMod n bc.table.length)).map
    (fun entry => if entry.a = n ∧ entry.c = op_not then entry.res else -1)

/-- `applycache.setnot`: overwrite the slot at `n % len` (the `b` field gets
Go's zero value) and return `res`. -/
def applycache.setnot (bc : applycache) (n res : Int) : Option (applycache × Int) :=
  (listSetI bc.table (goMod n bc.table.length)
      { a := n, b := 0, c := op_not, res := res }).map
    (fun t => ({ bc with table := t }, res))

/-- `itecache.matchite`: probe `_TRIPLE(f, g, h, len)`; hit iff
`a = f ∧ b = g ∧ c = h`. -/
def itecache.matchite (bc : itecache) (f g h : Int) : Option Int :=
  (listGetI bc.table (_TRIPLE f g h bc.table.length)).map
    (fun entry => if entry.a = f ∧ entry.b = g ∧ entry.c = h then entry.res else -1)

/-- `itecache.setite`: overwrite the slot at `_TRIPLE(f, g, h, len)` and
return `res`. -/
def itecache.setite (bc : itecache) (f g h res : Int) : Option (itecache × Int) :=
  (listSetI bc.table (_TRIPLE f g h bc.table.length)
      { a := f, b := g, c := h, res := res }).map
    (fun t => ({ bc with table := t }, res))

/-- `quantcache.matchquant`: probe `_PAIR(n, varset, len)`; hit iff
`a = n ∧ b = varset ∧ c = id`. -/
def quantcache.matchquant (bc : quantcache) (n varset : Int) : Option Int :=
  (listGetI bc.table (_PAIR n varset bc.table.length)).map
    (fun entry => if entry.a = n ∧ entry.b = varset ∧ entry.c = bc.id then entry.res else -1)

/-- `quantcache.setquant`: overwrite the slot at `_PAIR(n, varset, len)` and
return `res`. -/
def quantcache.setquant (bc : quantcache) (n varset res : Int) : Option (quantcache × Int) :=
  (listSetI bc.table (_PAIR n varset bc.table.length)
      { a := n, b := varset, c := bc.id, res := res }).map
    (fun t => ({ bc with table := t }, res))

/-- `appexcache.matchappex`: probe `_TRIPLE(left, right, id, len)`; hit iff
`a = left ∧ b = right ∧ c = id`. -/
def appexcache.matchappex (bc : appexcache) (left right : Int) : Option Int :=
  (listGetI bc.table (_TRIPLE left right bc.id bc.table.length)).map
    (fun entry => if entry.a = left ∧ entry.b = right ∧ entry.c = bc.id then entry.res else -1)

/-- `appexcache.setappex`: overwrite the slot at `_TRIPLE(left, right, id, len)`
and return `res`. -/
def appexcache.setappex (bc : appexcache) (left right res : Int) : Option (appexcache × Int) :=
  (listSetI bc.table (_TRIPLE left right bc.id bc.table.length)
      { a := left, b := right, c := bc.id, res := res }).map
    (fun t => ({ bc with table := t }, res))

/-- `replacecache.matchreplace`: probe `n % len`; hit iff `a = n ∧ c = id`. -/
def replacecache.matchreplace (bc : replacecache) (n : Int) : Option Int :=
  (listGetI bc.table (goMod n bc.table.length)).map
    (fun entry => if entry.a = n ∧ entry.c = bc.id then entry.res else -1)

/-- `replacecache.setreplace`: overwrite the slot at `n % len` and return `res`. -/
def replacecache.setreplace (bc : replacecache) (n res : Int) : Option (replacecache × Int) :=
  (listSetI bc.table (goMod n bc.table.length)
      { a := n, c := bc.id, res := res }).map
    (fun t => ({ bc with table := t }, res))

/-- A BDD node as seen by this layer: `(level, low, high)`. -/
structure node where
  level : Int
  low : Int
  high : Int
deriving DecidableEq, Repr

/-- The part of the `buddy` engine state this layer touches. -/
structure buddy where
  nodes : List node
  varnum : Nat
  quantset : List Int
  quantsetID : Int
  quantlast : Int
  error : Option String
  applycache : applycache
  itecache : itecache
  quantcache : quantcache
  appexcache : appexcache
  replacecache : replacecache
deriving DecidableEq, Repr

/-- `buddy.cachereset`: reset all five specialized caches. -/
def buddy.cachereset (b : buddy) : buddy :=
  { b with
    applycache := b.applycache.reset
    itecache := b.itecache.reset
    quantcache := b.quantcache.reset
    appexcache := b.appexcache.reset
    replacecache := b.replacecache.reset }

/-- `buddy.cacheresize`: resize all five specialized caches to track
`len(b.nodes)`. -/
def buddy.cacheresize (b : buddy) : buddy :=
  { b with
    applycache := b.applycache.resize b.nodes.length
    itecache := b.itecache.resize b.nodes.length
    quantcache := b.quantcache.resize b.nodes.length
    appexcache := b.appexcache.resize b.nodes.length
    replacecache := b.replacecache.resize b.nodes.length }

/-- The generation counter value used by a successful `quantset2cache` call:
increment, and restart at 1 when the increment reaches `math.MaxInt32`. -/
def nextID (b : buddy) : Int :=
  if b.quantsetID + 1 = maxInt32 then 1 else b.quantsetID + 1

/-- The register contents a successful `quantset2cache` call starts marking
from: reallocated to all-zero on counter wrap, otherwise unchanged. -/
def nextSet (b : buddy) : List Int :=
  if b.quantsetID + 1 = maxInt32 then List.replicate b.varnum 0 else b.quantset

/-- The chain walk of `quantset2cache`:
`for i := n; i > 1; i = b.nodes[i].high { quantset[nodes[i].level] = id; quantlast = nodes[i].level }`.
`fuel` bounds the number of iterations; `none` models a panic (index out of
bounds) or running out of fuel with the loop still going. -/
def quantWalk (nodes : List node) (id : Int) :
    Nat → Int → List Int → Int → Option (List Int × Int)
  | 0, i, qs, ql => if 1 < i then none else some (qs, ql)
  | fuel + 1, i, qs, ql =>
    if 1 < i then
      (listGetI nodes i).bind (fun nd =>
        (listSetI qs nd.level id).bind (fun qs2 =>
          quantWalk nodes id fuel nd.high qs2 nd.level))
    else some (qs, ql)

/-- The sequence of levels visited by the chain walk starting at `i`
(`none` when the walk would panic or run out of fuel). -/
def chainLevels (nodes : List node) : Nat → Int → Option (List Int)
  | 0, i => if 1 < i then none else some []
  | fuel + 1, i =>
    if 1 < i then
      (listGetI nodes i).bind (fun nd =>
        (chainLevels nodes fuel nd.high).map (fun ls => nd.level :: ls))
    else some []

/-- Marking a given list of levels with generation `id`, recording the last
level marked: the pure counterpart of `quantWalk` on an explicit level list. -/
def markList (id : Int) : List Int → List Int → Int → Option (List Int × Int)
  | [], qs, ql => some (qs, ql)
  | lv :: rest, qs, _ql =>
    (listSetI qs lv id).bind (fun qs2 => markList id rest qs2 lv)

/-- `buddy.quantset2cache`: register a variable set given by the chain head
`n`. Returns `none` for a Go panic / non-termination; otherwise
`some (newState, errored)` where `errored` is true iff the function returned a
non-nil error. -/
def buddy.quantset2cache (b : buddy) (fuel : Nat) (n : Int) : Option (buddy × Bool) :=
  if n < 2 then
    some ({ b with error := some "Illegal variable in varset to cache" }, true)
  else
    (quantWalk b.nodes (nextID b) fuel n (nextSet b) b.quantlast).map (fun r =>
      ({ b with quantset := r.1, quantsetID := nextID b, quantlast := r.2 }, false))

/-! ### Concrete states used to exercise the theorems on closed inputs -/

/-- A small concrete apply cache (3 empty slots, current operator 2). -/
def apc0 : applycache := ⟨⟨0, 0, 0, List.replicate 3 ⟨0, -1, 0, 0⟩⟩, 2⟩

/-- A small concrete ITE cache (3 empty slots). -/
def itc0 : itecache := ⟨⟨0, 0, 0, List.replicate 3 ⟨0, -1, 0, 0⟩⟩⟩

/-- A small concrete quantification cache (3 empty slots, current id 4). -/
def qcc0 : quantcache := ⟨⟨0, 0, 0, List.replicate 3 ⟨0, -1, 0, 0⟩⟩, 4⟩

/-- A small concrete appex cache (3 empty slots, operator 1, id 4). -/
def axc0 : appexcache := ⟨⟨0, 0, 0, List.replicate 3 ⟨0, -1, 0, 0⟩⟩, 1, 4⟩

/-- A small concrete replace cache (3 empty slots, current id 4). -/
def rpc0 : replacecache := ⟨⟨0, 0, 0, List.replicate 3 ⟨0, -1, 0⟩⟩, 4⟩

/-- A small concrete engine state: terminals 0 and 1, node 2 at level 1 with
high link to terminal 1, node 3 at level 0 with high link to node 2 (so node 3
heads the variable-set chain covering levels 0 and 1). -/
def b0 : buddy :=
  { nodes := [⟨2, 0, 0⟩, ⟨2, 1, 1⟩, ⟨1, 0, 1⟩, ⟨0, 0, 2⟩]
    varnum := 2
    quantset := [0, 0]
    quantsetID := 0
    quantlast := 0
    error := none
    applycache := apc0
    itecache := itc0
    quantcache := qcc0
    appexcache := axc0
    replacecache := rpc0 }

/-- The state `b0` reaches after registering the variable set headed at
node 3: both levels marked with generation 1, `quantlast` = 1. -/
def b1 : buddy := { b0 with quantset := [1, 1], quantsetID := 1, quantlast := 1 }

/-- The cache `apc0` after inserting `(3, 5) → 9` under operator 2. -/
def apc1 : applycache :=
  ⟨⟨0, 0, 0, [⟨0, -1, 0, 0⟩, ⟨0, -1, 0, 0⟩, ⟨9, 3, 5, 2⟩]⟩, 2⟩

/-- The cache `qcc0` after inserting `(3, 5) → 9` under id 4. -/
def qcc1 : quantcache :=
  ⟨⟨0, 0, 0, [⟨9, 3, 5, 4⟩, ⟨0, -1, 0, 0⟩, ⟨0, -1, 0, 0⟩]⟩, 4⟩

/-- The cache `axc0` after inserting `(3, 5) → 9` under id 4. -/
def axc1 : appexcache :=
  ⟨⟨0, 0, 0, [⟨0, -1, 0, 0⟩, ⟨0, -1, 0, 0⟩, ⟨9, 3, 5, 4⟩]⟩, 1, 4⟩

/-- The cache `rpc0` after inserting `3 → 9` under id 4. -/
def rpc1 : replacecache :=
  ⟨⟨0, 0, 0, [⟨9, 3, 4⟩, ⟨0, -1, 0⟩, ⟨0, -1, 0⟩]⟩, 4⟩

/-- A small concrete apply cache with `ratio = 2` (size tracks the node table). -/
def apc2 : applycache := ⟨⟨2, 0, 0, List.replicate 3 ⟨0, -1, 0, 0⟩⟩, 2⟩

/-! ### Basic lemmas about slice access and the hash indexes -/

theorem listGetI_eq_getElem {α : Type} (l : List α) (i : Int) (h0 : 0 ≤ i)
    (h1 : i.toNat < l.length) : listGetI l i = some l[i.toNat] := by
  simp [listGetI, h0, List.getElem?_eq_getElem h1]

theorem listGetI_mem {α : Type} (l : List α) (i : Int) (h0 : 0 ≤ i)
    (h1 : i.toNat < l.length) : ∃ x, listGetI l i = some x ∧ x ∈ l := by
  exact ⟨l[i.toNat], listGetI_eq_getElem l i h0 h1, List.getElem_mem h1⟩

theorem listSetI_eq_some {α : Type} (l : List α) (i : Int) (v : α) (h0 : 0 ≤ i)
    (h1 : i.toNat < l.length) : listSetI l i v = some (l.set i.toNat v) := by
  simp [listSetI, h0, h1]

theorem listGetI_set_self {α : Type} (l : List α) (i : Int) (v : α) (h0 : 0 ≤ i)
    (h1 : i.toNat < l.length) : listGetI (l.set i.toNat v) i = some v := by
  simp [listGetI, h0, List.getElem?_set_self (by simpa using h1)]

theorem listGetI_set_ne {α : Type} (l : List α) (i j : Int) (v : α) (h0 : 0 ≤ i)
    (hne : i ≠ j) : listGetI (l.set i.toNat v) j = listGetI l j := by
  by_cases hj : 0 ≤ j
  · have : i.toNat ≠ j.toNat := by omega
    simp [listGetI, hj, List.getElem?_set_ne this]
  · simp [listGetI, hj]

theorem goMod_bounds (n : Int) (len : Nat) (hn : 0 ≤ n) (hlen : 0 < len) :
    0 ≤ goMod n len ∧ (goMod n len).toNat < len := by
  have h1 : 0 ≤ goMod n len := Int.tmod_nonneg _ hn
  have h2 : goMod n len < len := Int.tmod_lt_of_pos n (by exact_mod_cast hlen)
  omega

theorem _PAIR_bounds (a b : Int) (len : Nat) (hlen : 0 < len) :
    0 ≤ _PAIR a b len ∧ (_PAIR a b len).toNat < len := by
  have hne : ((len : Int)) ≠ 0 := by exact_mod_cast Nat.pos_iff_ne_zero.mp hlen
  have h1 : 0 ≤ _PAIR a b len := Int.emod_nonneg _ hne
  have h2 : _PAIR a b len < len := Int.emod_lt_of_pos _ (by exact_mod_cast hlen)
  omega

theorem _TRIPLE_bounds (a b c : Int) (len : Nat) (hlen : 0 < len) :
    0 ≤ _TRIPLE a b c len ∧ (_TRIPLE a b c len).toNat < len := by
  have hne : ((len : Int)) ≠ 0 := by exact_mod_cast Nat.pos_iff_ne_zero.mp hlen
  have h1 : 0 ≤ _TRIPLE a b c len := Int.emod_nonneg _ hne
  have h2 : _TRIPLE a b c len < len := Int.emod_lt_of_pos _ (by exact_mod_cast hlen)
  omega

/-! ### Insert-then-lookup, one lemma per specialized cache -/

theorem setapply_matchapply (bc : applycache) (left right r : Int)
    (htbl : bc.table ≠ []) :
    ∃ bc2, bc.setapply left right r = some (bc2, r) ∧
      bc2.matchapply left right = some r := by
  have hlen : 0 < bc.table.length := List.length_pos.mpr htbl
  obtain ⟨h0, h1⟩ := _TRIPLE_bounds left right bc.op bc.table.length hlen
  refine ⟨{ bc with table := (bc.table.set
      (_TRIPLE left right bc.op bc.table.length).toNat ⟨r, left, right, bc.op⟩) }, ?_, ?_⟩
  · rw [applycache.setapply, listSetI_eq_some _ _ _ h0 h1]
    rfl
  · rw [applycache.matchapply]
    show (listGetI (bc.table.set _ _)
        (_TRIPLE left right bc.op (bc.table.set _ _).length)).map _ = some r
    rw [List.length_set, listGetI_set_self _ _ _ h0 h1]
    simp

theorem setite_matchite (bc : itecache) (f g h r : Int) (htbl : bc.table ≠ []) :
    ∃ bc2, bc.setite f g h r = some (bc2, r) ∧ bc2.matchite f g h = some r := by
  have hlen : 0 < bc.table.length := List.length_pos.mpr htbl
  obtain ⟨h0, h1⟩ := _TRIPLE_bounds f g h bc.table.length hlen
  refine ⟨{ bc with table := (bc.table.set
      (_TRIPLE f g h bc.table.length).toNat ⟨r, f, g, h⟩) }, ?_, ?_⟩
  · rw [itecache.setite, listSetI_eq_some _ _ _ h0 h1]
    rfl
  · rw [itecache.matchite]
    show (listGetI (bc.table.set _ _)
        (_TRIPLE f g h (bc.table.set _ _).length)).map _ = some r
    rw [List.length_set, listGetI_set_self _ _ _ h0 h1]
    simp

theorem setquant_matchquant (bc : quantcache) (n varset r : Int) (htbl : bc.table ≠ []) :
    ∃ bc2, bc.setquant n varset r = some (bc2, r) ∧ bc2.matchquant n varset = some r := by
  have hlen : 0 < bc.table.length := List.length_pos.mpr htbl
  obtain ⟨h0, h1⟩ := _PAIR_bounds n varset bc.table.length hlen
  refine ⟨{ bc with table := (bc.table.set
      (_PAIR n varset bc.table.length).toNat ⟨r, n, varset, bc.id⟩) }, ?_, ?_⟩
  · rw [quantcache.setquant, listSetI_eq_some _ _ _ h0 h1]
    rfl
  · rw [quantcache.matchquant]
    show (listGetI (bc.table.set _ _)
        (_PAIR n varset (bc.table.set _ _).length)).map _ = some r
    rw [List.length_set, listGetI_set_self _ _ _ h0 h1]
    simp

theorem setappex_matchappex (bc : appexcache) (left right r : Int) (htbl : bc.table ≠ []) :
    ∃ bc2, bc.setappex left right r = some (bc2, r) ∧ bc2.matchappex left right = some r := by
  have hlen : 0 < bc.table.length := List.length_pos.mpr htbl
  obtain ⟨h0, h1⟩ := _TRIPLE_bounds left right bc.id bc.table.length hlen
  refine ⟨{ bc with table := (bc.table.set
      (_TRIPLE left right bc.id bc.table.length).toNat ⟨r, left, right, bc.id⟩) }, ?_, ?_⟩
  · rw [appexcache.setappex, listSetI_eq_some _ _ _ h0 h1]
    rfl
  · rw [appexcache.matchappex]
    show (listGetI (bc.table.set _ _)
        (_TRIPLE left right bc.id (bc.table.set _ _).length)).map _ = some r
    rw [List.length_set, listGetI_set_self _ _ _ h0 h1]
    simp

theorem setreplace_matchreplace (bc : replacecache) (n r : Int) (hn : 0 ≤ n)
    (htbl : bc.table ≠ []) :
    ∃ bc2, bc.setreplace n r = some (bc2, r) ∧ bc2.matchreplace n = some r := by
  have hlen : 0 < bc.table.length := List.length_pos.mpr htbl
  obtain ⟨h0, h1⟩ := goMod_bounds n bc.table.length hn hlen
  refine ⟨{ bc with table := (bc.table.set
      (goMod n bc.table.length).toNat ⟨r, n, bc.id⟩) }, ?_, ?_⟩
  · rw [replacecache.setreplace, listSetI_eq_some _ _ _ h0 h1]
    rfl
  · rw [replacecache.matchreplace]
    show (listGetI (bc.table.set _ _)
        (goMod n (bc.table.set _ _).length)).map _ = some r
    rw [List.length_set, listGetI_set_self _ _ _ h0 h1]
    simp

/-! ### Slot invalidation and lookups on invalidated tables -/

theorem reset4_mem (bc : data4ncache) : ∀ e ∈ bc.reset.table, e.a = -1 := by
  intro e he
  rw [data4ncache.reset] at he
  obtain ⟨e0, _, rfl⟩ := List.mem_map.mp he
  rfl

theorem reset4_length (bc : data4ncache) : bc.reset.table.length = bc.table.length := by
  simp [data4ncache.reset]

theorem reset3_mem (bc : data3ncache) : ∀ e ∈ bc.reset.table, e.a = -1 := by
  intro e he
  rw [data3ncache.reset] at he
  obtain ⟨e0, _, rfl⟩ := List.mem_map.mp he
  rfl

theorem reset3_length (bc : data3ncache) : bc.reset.table.length = bc.table.length := by
  simp [data3ncache.reset]

theorem matchapply_clean (bc : applycache) (x y : Int) (htbl : bc.table ≠ [])
    (hclean : ∀ e ∈ bc.table, e.a = -1) (hx : 0 ≤ x) :
    bc.matchapply x y = some (-1) := by
  have hlen : 0 < bc.table.length := List.length_pos.mpr htbl
  obtain ⟨h0, h1⟩ := _TRIPLE_bounds x y bc.op bc.table.length hlen
  rw [applycache.matchapply]
  obtain ⟨e, hget, hmem⟩ := listGetI_mem bc.table _ h0 h1
  rw [hget]
  have hea := hclean e hmem
  have hno : ¬ (e.a = x ∧ e.b = y ∧ e.c = bc.op) := by
    intro hc
    omega
  simp [hno]

theorem matchnot_clean (bc : applycache) (n : Int) (htbl : bc.table ≠ [])
    (hclean : ∀ e ∈ bc.table, e.a = -1) (hn : 0 ≤ n) :
    bc.matchnot n = some (-1) := by
  have hlen : 0 < bc.table.length := List.length_pos.mpr htbl
  obtain ⟨h0, h1⟩ := goMod_bounds n bc.table.length hn hlen
  rw [applycache.matchnot]
  obtain ⟨e, hget, hmem⟩ := listGetI_mem bc.table _ h0 h1
  rw [hget]
  have hea := hclean e hmem
  have hno : ¬ (e.a = n ∧ e.c = op_not) := by
    intro hc
    omega
  simp [hno]

theorem matchite_clean (bc : itecache) (f g h : Int) (htbl : bc.table ≠ [])
    (hclean : ∀ e ∈ bc.table, e.a = -1) (hf : 0 ≤ f) :
    bc.matchite f g h = some (-1) := by
  have hlen : 0 < bc.table.length := List.length_pos.mpr htbl
  obtain ⟨h0, h1⟩ := _TRIPLE_bounds f g h bc.table.length hlen
  rw [itecache.matchite]
  obtain ⟨e, hget, hmem⟩ := listGetI_mem bc.table _ h0 h1
  rw [hget]
  have hea := hclean e hmem
  have hno : ¬ (e.a = f ∧ e.b = g ∧ e.c = h) := by
    intro hc
    omega
  simp [hno]

theorem matchquant_clean (bc : quantcache) (n v : Int) (htbl : bc.table ≠ [])
    (hclean : ∀ e ∈ bc.table, e.a = -1) (hn : 0 ≤ n) :
    bc.matchquant n v = some (-1) := by
  have hlen : 0 < bc.table.length := List.length_pos.mpr htbl
  obtain ⟨h0, h1⟩ := _PAIR_bounds n v bc.table.length hlen
  rw [quantcache.matchquant]
  obtain ⟨e, hget, hmem⟩ := listGetI_mem bc.table _ h0 h1
  rw [hget]
  have hea := hclean e hmem
  have hno : ¬ (e.a = n ∧ e.b = v ∧ e.c = bc.id) := by
    intro hc
    omega
  simp [hno]

theorem matchappex_clean (bc : appexcache) (x y : Int) (htbl : bc.table ≠ [])
    (hclean : ∀ e ∈ bc.table, e.a = -1) (hx : 0 ≤ x) :
    bc.matchappex x y = some (-1) := by
  have hlen : 0 < bc.table.length := List.length_pos.mpr htbl
  obtain ⟨h0, h1⟩ := _TRIPLE_bounds x y bc.id bc.table.length hlen
  rw [appexcache.matchappex]
  obtain ⟨e, hget, hmem⟩ := listGetI_mem bc.table _ h0 h1
  rw [hget]
  have hea := hclean e hmem
  have hno : ¬ (e.a = x ∧ e.b = y ∧ e.c = bc.id) := by
    intro hc
    omega
  simp [hno]

theorem matchreplace_clean (bc : replacecache) (n : Int) (htbl : bc.table ≠ [])
    (hclean : ∀ e ∈ bc.table, e.a = -1) (hn : 0 ≤ n) :
    bc.matchreplace n = some (-1) := by
  have hlen : 0 < bc.table.length := List.length_pos.mpr htbl
  obtain ⟨h0, h1⟩ := goMod_bounds n bc.table.length hn hlen
  rw [replacecache.matchreplace]
  obtain ⟨e, hget, hmem⟩ := listGetI_mem bc.table _ h0 h1
  rw [hget]
  have hea := hclean e hmem
  have hno : ¬ (e.a = n ∧ e.c = bc.id) := by
    intro hc
    omega
  simp [hno]

/-! ### The prime capacity function and resize -/

theorem bdd_prime_gte_prime (n : Int) : Nat.Prime (bdd_prime_gte n) :=
  (Nat.find_spec (Nat.exists_infinite_primes n.toNat)).2

theorem bdd_prime_gte_ge (n : Int) : n ≤ (bdd_prime_gte n : Int) := by
  have h := (Nat.find_spec (Nat.exists_infinite_primes n.toNat)).1
  have h2 : (n.toNat : Int) ≤ (bdd_prime_gte n : Int) := by exact_mod_cast h
  have h3 : n ≤ (n.toNat : Int) := Int.self_le_toNat n
  omega

theorem bdd_prime_gte_min (n : Int) (p : Nat) (hp : Nat.Prime p)
    (hnp : n ≤ (p : Int)) : bdd_prime_gte n ≤ p :=
  Nat.find_min' _ ⟨Int.toNat_le.mpr hnp, hp⟩

theorem bdd_prime_gte_pos (n : Int) : 0 < bdd_prime_gte n :=
  (bdd_prime_gte_prime n).pos

theorem resize4_length_pos (bc : data4ncache) (n : Int) (hr : 0 < bc.ratio) :
    (bc.resize n).table.length = bdd_prime_gte (goDiv n bc.ratio) := by
  rw [data4ncache.resize, if_pos hr, reset4_length]
  simp

theorem resize4_clean (bc : data4ncache) (n : Int) :
    ∀ e ∈ (bc.resize n).table, e.a = -1 := by
  rw [data4ncache.resize]
  split
  · exact reset4_mem _
  · exact reset4_mem _

theorem resize4_length_zero (bc : data4ncache) (n : Int) (hr : bc.ratio = 0) :
    (bc.resize n).table.length = bc.table.length := by
  rw [data4ncache.resize, if_neg (by omega), reset4_length]

theorem resize3_length_pos (bc : data3ncache) (n : Int) (hr : 0 < bc.ratio) :
    (bc.resize n).table.length = bdd_prime_gte (goDiv n bc.ratio) := by
  rw [data3ncache.resize, if_pos hr, reset3_length]
  simp

theorem resize3_clean (bc : data3ncache) (n : Int) :
    ∀ e ∈ (bc.resize n).table, e.a = -1 := by
  rw [data3ncache.resize]
  split
  · exact reset3_mem _
  · exact reset3_mem _

theorem resize3_length_zero (bc : data3ncache) (n : Int) (hr : bc.ratio = 0) :
    (bc.resize n).table.length = bc.table.length := by
  rw [data3ncache.resize, if_neg (by omega), reset3_length]

theorem resize4_ne_nil (bc : data4ncache) (n : Int)
    (h : 0 < bc.ratio ∨ bc.table ≠ []) : (bc.resize n).table ≠ [] := by
  rcases h with hr | hne
  · have hL := resize4_length_pos bc n hr
    have hP := bdd_prime_gte_pos (goDiv n bc.ratio)
    intro hnil
    rw [hnil] at hL
    simp_all
  · rw [data4ncache.resize]
    split
    · have := bdd_prime_gte_pos (goDiv n bc.ratio)
      intro hnil
      have := congrArg List.length hnil
      rw [reset4_length] at this
      simp_all
    · intro hnil
      have := congrArg List.length hnil
      rw [reset4_length] at this
      exact hne (List.length_eq_zero.mp (by simpa using this))

theorem resize3_ne_nil (bc : data3ncache) (n : Int)
    (h : 0 < bc.ratio ∨ bc.table ≠ []) : (bc.resize n).table ≠ [] := by
  rcases h with hr | hne
  · have hL := resize3_length_pos bc n hr
    have hP := bdd_prime_gte_pos (goDiv n bc.ratio)
    intro hnil
    rw [hnil] at hL
    simp_all
  · rw [data3ncache.resize]
    split
    · have := bdd_prime_gte_pos (goDiv n bc.ratio)
      intro hnil
      have := congrArg List.length hnil
      rw [reset3_length] at this
      simp_all
    · intro hnil
      have := congrArg List.length hnil
      rw [reset3_length] at this
      exact hne (List.length_eq_zero.mp (by simpa using this))

/-! ### Discriminant isolation, one lemma per discriminant-tagged cache -/

theorem apply_isolation (bc : applycache) (x y r d2 : Int) (htbl : bc.table ≠ [])
    (hclean : ∀ e ∈ bc.table, e.a = -1) (hx : 0 ≤ x) (hne : d2 ≠ bc.op)
    (bc2 : applycache) (ret : Int) (hset : bc.setapply x y r = some (bc2, ret)) :
    applycache.matchapply { bc2 with op := d2 } x y = some (-1) := by
  have hlen : 0 < bc.table.length := List.length_pos.mpr htbl
  obtain ⟨h0, h1⟩ := _TRIPLE_bounds x y bc.op bc.table.length hlen
  rw [applycache.setapply, listSetI_eq_some _ _ _ h0 h1, Option.map_some',
    Option.some_inj] at hset
  injection hset with hbc hret
  subst hbc
  obtain ⟨h0', h1'⟩ := _TRIPLE_bounds x y d2 bc.table.length hlen
  rw [applycache.matchapply]
  show (listGetI (bc.table.set _ _)
      (_TRIPLE x y d2 (bc.table.set _ _).length)).map _ = some (-1)
  rw [List.length_set]
  by_cases hii : _TRIPLE x y bc.op bc.table.length = _TRIPLE x y d2 bc.table.length
  · rw [← hii, listGetI_set_self _ _ _ h0 h1]
    simp [Ne.symm hne]
  · rw [listGetI_set_ne _ _ _ _ h0 hii]
    obtain ⟨e, hget, hmem⟩ := listGetI_mem bc.table _ h0' h1'
    rw [hget]
    have hea : e.a = -1 := hclean e hmem
    have hno : ¬ (e.a = x ∧ e.b = y ∧ e.c = d2) := by
      intro hc
      omega
    simp [hno]

theorem quant_isolation (bc : quantcache) (n v r d2 : Int) (htbl : bc.table ≠ [])
    (hne : d2 ≠ bc.id) (bc2 : quantcache) (ret : Int)
    (hset : bc.setquant n v r = some (bc2, ret)) :
    quantcache.matchquant { bc2 with id := d2 } n v = some (-1) := by
  have hlen : 0 < bc.table.length := List.length_pos.mpr htbl
  obtain ⟨h0, h1⟩ := _PAIR_bounds n v bc.table.length hlen
  rw [quantcache.setquant, listSetI_eq_some _ _ _ h0 h1, Option.map_some',
    Option.some_inj] at hset
  injection hset with hbc hret
  subst hbc
  rw [quantcache.matchquant]
  show (listGetI (bc.table.set _ _)
      (_PAIR n v (bc.table.set _ _).length)).map _ = some (-1)
  rw [List.length_set, listGetI_set_self _ _ _ h0 h1]
  simp [Ne.symm hne]

theorem appex_isolation (bc : appexcache) (x y r d2 : Int) (htbl : bc.table ≠ [])
    (hclean : ∀ e ∈ bc.table, e.a = -1) (hx : 0 ≤ x) (hne : d2 ≠ bc.id)
    (bc2 : appexcache) (ret : Int) (hset : bc.setappex x y r = some (bc2, ret)) :
    appexcache.matchappex { bc2 with id := d2 } x y = some (-1) := by
  have hlen : 0 < bc.table.length := List.length_pos.mpr htbl
  obtain ⟨h0, h1⟩ := _TRIPLE_bounds x y bc.id bc.table.length hlen
  rw [appexcache.setappex, listSetI_eq_some _ _ _ h0 h1, Option.map_some',
    Option.some_inj] at hset
  injection hset with hbc hret
  subst hbc
  obtain ⟨h0', h1'⟩ := _TRIPLE_bounds x y d2 bc.table.length hlen
  rw [appexcache.matchappex]
  show (listGetI (bc.table.set _ _)
      (_TRIPLE x y d2 (bc.table.set _ _).length)).map _ = some (-1)
  rw [List.length_set]
  by_cases hii : _TRIPLE x y bc.id bc.table.length = _TRIPLE x y d2 bc.table.length
  · rw [← hii, listGetI_set_self _ _ _ h0 h1]
    simp [Ne.symm hne]
  · rw [listGetI_set_ne _ _ _ _ h0 hii]
    obtain ⟨e, hget, hmem⟩ := listGetI_mem bc.table _ h0' h1'
    rw [hget]
    have hea : e.a = -1 := hclean e hmem
    have hno : ¬ (e.a = x ∧ e.b = y ∧ e.c = d2) := by
      intro hc
      omega
    simp [hno]

theorem replace_isolation (bc : replacecache) (n r d2 : Int) (htbl : bc.table ≠ [])
    (hn : 0 ≤ n) (hne : d2 ≠ bc.id) (bc2 : replacecache) (ret : Int)
    (hset : bc.setreplace n r = some (bc2, ret)) :
    replacecache.matchreplace { bc2 with id := d2 } n = some (-1) := by
  have hlen : 0 < bc.table.length := List.length_pos.mpr htbl
  obtain ⟨h0, h1⟩ := goMod_bounds n bc.table.length hn hlen
  rw [replacecache.setreplace, listSetI_eq_some _ _ _ h0 h1, Option.map_some',
    Option.some_inj] at hset
  injection hset with hbc hret
  subst hbc
  rw [replacecache.matchreplace]
  show (listGetI (bc.table.set _ _)
      (goMod n (bc.table.set _ _).length)).map _ = some (-1)
  rw [List.length_set, listGetI_set_self _ _ _ h0 h1]
  simp [Ne.symm hne]

/-! ### The chain walk of the variable-set register -/

theorem listSetI_inv {α : Type} (l : List α) (i : Int) (v : α) (l2 : List α)
    (h : listSetI l i v = some l2) :
    0 ≤ i ∧ i.toNat < l.length ∧ l2 = l.set i.toNat v := by
  rw [listSetI] at h
  split at h
  · rename_i hc
    injection h with h
    exact ⟨hc.1, hc.2, h.symm⟩
  · cases h

theorem quantWalk_eq_markList (nodes : List node) (id : Int) (fuel : Nat) :
    ∀ (i : Int) (qs : List Int) (ql : Int) (ls : List Int),
      chainLevels nodes fuel i = some ls →
      quantWalk nodes id fuel i qs ql = markList id ls qs ql := by
  induction fuel with
  | zero =>
    intro i qs ql ls h
    rw [chainLevels] at h
    by_cases hi : 1 < i
    · rw [if_pos hi] at h
      cases h
    · rw [if_neg hi] at h
      injection h with h
      subst h
      rw [quantWalk, if_neg hi, markList]
  | succ fuel ih =>
    intro i qs ql ls h
    rw [chainLevels] at h
    rw [quantWalk]
    by_cases hi : 1 < i
    · rw [if_pos hi] at h
      rw [if_pos hi]
      rw [Option.bind_eq_some] at h
      obtain ⟨nd, hg, hmap⟩ := h
      rw [Option.map_eq_some'] at hmap
      obtain ⟨ls', hls', rfl⟩ := hmap
      rw [hg, Option.some_bind, markList]
      cases hs : listSetI qs nd.level id with
      | none => rfl
      | some qs2 =>
        simp only [Option.some_bind]
        exact ih nd.high qs2 nd.level ls' hls'
    · rw [if_neg hi] at h
      injection h with h
      subst h
      rw [if_neg hi, markList]

theorem markList_preserve (id lv : Int) :
    ∀ (ls qs : List Int) (ql : Int) (qs2 : List Int) (ql2 : Int),
      markList id ls qs ql = some (qs2, ql2) →
      listGetI qs lv = some id → listGetI qs2 lv = some id := by
  intro ls
  induction ls with
  | nil =>
    intro qs ql qs2 ql2 h hget
    rw [markList] at h
    injection h with h
    injection h with h1 h2
    subst h1
    exact hget
  | cons lv0 rest ih =>
    intro qs ql qs2 ql2 h hget
    rw [markList, Option.bind_eq_some] at h
    obtain ⟨qs1, hs, h⟩ := h
    obtain ⟨h0, h1, rfl⟩ := listSetI_inv _ _ _ _ hs
    refine ih _ _ _ _ h ?_
    by_cases hlv : lv = lv0
    · subst hlv
      exact listGetI_set_self _ _ _ h0 h1
    · rw [listGetI_set_ne _ _ _ _ h0 (fun hc => hlv hc.symm)]
      exact hget

theorem markList_marks (id : Int) :
    ∀ (ls qs : List Int) (ql : Int) (qs2 : List Int) (ql2 : Int),
      markList id ls qs ql = some (qs2, ql2) →
      ∀ lv ∈ ls, listGetI qs2 lv = some id := by
  intro ls
  induction ls with
  | nil =>
    intro qs ql qs2 ql2 h lv hlv
    cases hlv
  | cons lv0 rest ih =>
    intro qs ql qs2 ql2 h lv hlv
    rw [markList, Option.bind_eq_some] at h
    obtain ⟨qs1, hs, h⟩ := h
    obtain ⟨h0, h1, rfl⟩ := listSetI_inv _ _ _ _ hs
    rcases List.mem_cons.mp hlv with rfl | hmem
    · exact markList_preserve id lv _ _ _ _ _ h (listGetI_set_self _ _ _ h0 h1)
    · exact ih _ _ _ _ h lv hmem

theorem markList_last (id : Int) :
    ∀ (ls qs : List Int) (ql : Int) (qs2 : List Int) (ql2 : Int),
      markList id ls qs ql = some (qs2, ql2) → ql2 = ls.getLastD ql := by
  intro ls
  induction ls with
  | nil =>
    intro qs ql qs2 ql2 h
    rw [markList] at h
    injection h with h
    injection h with h1 h2
    subst h2
    rfl
  | cons lv0 rest ih =>
    intro qs ql qs2 ql2 h
    rw [markList, Option.bind_eq_some] at h
    obtain ⟨qs1, hs, h⟩ := h
    rw [List.getLastD_cons]
    exact ih _ _ _ _ h

theorem quantWalk_values (nodes : List node) (id : Int) (fuel : Nat) :
    ∀ (i : Int) (qs : List Int) (ql : Int) (qs2 : List Int) (ql2 : Int),
      quantWalk nodes id fuel i qs ql = some (qs2, ql2) →
      (∀ v ∈ qs, v = 0 ∨ v = id) → ∀ v ∈ qs2, v = 0 ∨ v = id := by
  induction fuel with
  | zero =>
    intro i qs ql qs2 ql2 h hv
    rw [quantWalk] at h
    split at h
    · cases h
    · injection h with h
      injection h with h1 h2
      subst h1
      exact hv
  | succ fuel ih =>
    intro i qs ql qs2 ql2 h hv
    rw [quantWalk] at h
    split at h
    · rw [Option.bind_eq_some] at h
      obtain ⟨nd, hg, h⟩ := h
      rw [Option.bind_eq_some] at h
      obtain ⟨qs1, hs, h⟩ := h
      obtain ⟨h0, h1, rfl⟩ := listSetI_inv _ _ _ _ hs
      refine ih _ _ _ _ _ h ?_
      intro v hvmem
      rcases List.mem_or_eq_of_mem_set hvmem with hvm | rfl
      · exact hv v hvm
      · exact Or.inr rfl
    · injection h with h
      injection h with h1 h2
      subst h1
      exact hv

theorem chainLevels_ne_nil (nodes : List node) (fuel : Nat) (i : Int) (ls : List Int)
    (hi : 1 < i) (h : chainLevels nodes fuel i = some ls) : ls ≠ [] := by
  cases fuel with
  | zero =>
    rw [chainLevels, if_pos hi] at h
    cases h
  | succ fuel =>
    rw [chainLevels, if_pos hi, Option.bind_eq_some] at h
    obtain ⟨nd, hg, hmap⟩ := h
    rw [Option.map_eq_some'] at hmap
    obtain ⟨ls', hls', rfl⟩ := hmap
    exact List.cons_ne_nil _ _

theorem goMod_neg_one (len : Int) (h : 2 ≤ len) : goMod (-1) len = -1 := by
  rw [goMod, Int.tmod_def]
  have h1 : (1 : Int).tdiv len = 0 := Int.tdiv_eq_zero_of_lt (by omega) (by omega)
  have h2 : (-1 : Int).tdiv len = 0 := by
    rw [show ((-1 : Int)) = -(1 : Int) from rfl, Int.neg_tdiv, h1]
    rfl
  rw [h2]
  ring

theorem matchnot_neg_one (bc : applycache) (h : 2 ≤ bc.table.length) :
    bc.matchnot (-1) = none := by
  rw [applycache.matchnot, goMod_neg_one _ (by exact_mod_cast h), listGetI]
  rw [if_neg (by omega)]
  rfl

theorem getLastD_mem : ∀ (ls : List Int) (d : Int), ls ≠ [] → ls.getLastD d ∈ ls := by
  intro ls
  induction ls with
  | nil =>
    intro d h
    exact absurd rfl h
  | cons lv0 rest ih =>
    intro d _
    rw [List.getLastD_cons]
    cases rest with
    | nil => exact List.mem_singleton.mpr rfl
    | cons lv1 rest1 =>
      exact List.mem_cons_of_mem _ (ih lv0 (List.cons_ne_nil _ _))

theorem chain_le_getLastD :
    ∀ (ls : List Int) (d : Int), List.Chain' (· < ·) ls →
      ∀ lv ∈ ls, lv ≤ ls.getLastD d := by
  intro ls
  induction ls with
  | nil =>
    intro d _ lv hlv
    cases hlv
  | cons lv0 rest ih =>
    intro d hchain lv hlv
    rw [List.getLastD_cons]
    cases rest with
    | nil =>
      rcases List.mem_singleton.mp hlv with rfl
      exact le_refl _
    | cons lv1 rest1 =>
      obtain ⟨hab, htail⟩ := List.chain'_cons.mp hchain
      rcases List.mem_cons.mp hlv with rfl | hmem
      · have h2 := ih lv htail lv1 (List.mem_cons_self _ _)
        omega
      · exact ih lv0 htail lv hmem

/-! ### The claims -/

/-- **C1**: for every specialized cache (apply, ite, quant, appex, replace) with
a non-empty table, for all node ids forming a key and any result `r`, performing
the cache's insert with that key and `r` under the current discriminant and then
immediately performing the cache's lookup with the same key under the same
discriminant returns `r`, and the insert itself returns `r` as its own return
value. -/
theorem C1_insert_then_lookup :
    (∀ (bc : applycache) (x y r : Int), bc.table ≠ [] → 0 ≤ x → 0 ≤ y →
      ∃ bc2, bc.setapply x y r = some (bc2, r) ∧ bc2.matchapply x y = some r) ∧
    (∀ (bc : itecache) (f g h r : Int), bc.table ≠ [] → 0 ≤ f → 0 ≤ g → 0 ≤ h →
      ∃ bc2, bc.setite f g h r = some (bc2, r) ∧ bc2.matchite f g h = some r) ∧
    (∀ (bc : quantcache) (n v r : Int), bc.table ≠ [] → 0 ≤ n → 0 ≤ v →
      ∃ bc2, bc.setquant n v r = some (bc2, r) ∧ bc2.matchquant n v = some r) ∧
    (∀ (bc : appexcache) (x y r : Int), bc.table ≠ [] → 0 ≤ x → 0 ≤ y →
      ∃ bc2, bc.setappex x y r = some (bc2, r) ∧ bc2.matchappex x y = some r) ∧
    (∀ (bc : replacecache) (n r : Int), bc.table ≠ [] → 0 ≤ n →
      ∃ bc2, bc.setreplace n r = some (bc2, r) ∧ bc2.matchreplace n = some r) :=
  ⟨fun bc x y r ht _ _ => setapply_matchapply bc x y r ht,
   fun bc f g h r ht _ _ _ => setite_matchite bc f g h r ht,
   fun bc n v r ht _ _ => setquant_matchquant bc n v r ht,
   fun bc x y r ht _ _ => setappex_matchappex bc x y r ht,
   fun bc n r ht hn => setreplace_matchreplace bc n r hn ht⟩

/-- Closed-input instance of `C1_insert_then_lookup`. -/
theorem C1_insert_then_lookup_witness :
    (apc0.table ≠ [] ∧ (0 : Int) ≤ 3 ∧ (0 : Int) ≤ 5 ∧
      ∃ bc2, apc0.setapply 3 5 9 = some (bc2, 9) ∧ bc2.matchapply 3 5 = some 9) ∧
    (∃ bc2, itc0.setite 2 3 4 9 = some (bc2, 9) ∧ bc2.matchite 2 3 4 = some 9) ∧
    (∃ bc2, qcc0.setquant 3 5 9 = some (bc2, 9) ∧ bc2.matchquant 3 5 = some 9) ∧
    (∃ bc2, axc0.setappex 3 5 9 = some (bc2, 9) ∧ bc2.matchappex 3 5 = some 9) ∧
    (∃ bc2, rpc0.setreplace 3 9 = some (bc2, 9) ∧ bc2.matchreplace 3 = some 9) :=
  ⟨⟨by decide, by decide, by decide,
     C1_insert_then_lookup.1 apc0 3 5 9 (by decide) (by decide) (by decide)⟩,
   C1_insert_then_lookup.2.1 itc0 2 3 4 9 (by decide) (by decide) (by decide) (by decide),
   C1_insert_then_lookup.2.2.1 qcc0 3 5 9 (by decide) (by decide) (by decide),
   C1_insert_then_lookup.2.2.2.1 axc0 3 5 9 (by decide) (by decide) (by decide),
   C1_insert_then_lookup.2.2.2.2 rpc0 3 9 (by decide) (by decide)⟩

/-- **C2**: for every discriminant-tagged cache (apply with `op`, quant with
`id`, appex with `id`, replace with `id`), inserting key `(x,y)` with result `r`
under discriminant `d1` and then querying the same key under a different
discriminant `d2 ≠ d1` with no intervening collision (here: starting from a
table whose slots are all empty) reports the `-1` miss sentinel, never `r`. -/
theorem C2_discriminant_isolation :
    (∀ (bc : applycache) (x y r d2 : Int) (bc2 : applycache) (ret : Int),
      bc.table ≠ [] → (∀ e ∈ bc.table, e.a = -1) → 0 ≤ x → d2 ≠ bc.op →
      bc.setapply x y r = some (bc2, ret) →
      applycache.matchapply { bc2 with op := d2 } x y = some (-1)) ∧
    (∀ (bc : quantcache) (n v r d2 : Int) (bc2 : quantcache) (ret : Int),
      bc.table ≠ [] → d2 ≠ bc.id → bc.setquant n v r = some (bc2, ret) →
      quantcache.matchquant { bc2 with id := d2 } n v = some (-1)) ∧
    (∀ (bc : appexcache) (x y r d2 : Int) (bc2 : appexcache) (ret : Int),
      bc.table ≠ [] → (∀ e ∈ bc.table, e.a = -1) → 0 ≤ x → d2 ≠ bc.id →
      bc.setappex x y r = some (bc2, ret) →
      appexcache.matchappex { bc2 with id := d2 } x y = some (-1)) ∧
    (∀ (bc : replacecache) (n r d2 : Int) (bc2 : replacecache) (ret : Int),
      bc.table ≠ [] → 0 ≤ n → d2 ≠ bc.id → bc.setreplace n r = some (bc2, ret) →
      replacecache.matchreplace { bc2 with id := d2 } n = some (-1)) :=
  ⟨fun bc x y r d2 bc2 ret ht hc hx hne hset =>
      apply_isolation bc x y r d2 ht hc hx hne bc2 ret hset,
   fun bc n v r d2 bc2 ret ht hne hset =>
      quant_isolation bc n v r d2 ht hne bc2 ret hset,
   fun bc x y r d2 bc2 ret ht hc hx hne hset =>
      appex_isolation bc x y r d2 ht hc hx hne bc2 ret hset,
   fun bc n r d2 bc2 ret ht hn hne hset =>
      replace_isolation bc n r d2 ht hn hne bc2 ret hset⟩

/-- Closed-input instance of `C2_discriminant_isolation`. -/
theorem C2_discriminant_isolation_witness :
    (apc0.table ≠ [] ∧ (∀ e ∈ apc0.table, e.a = -1) ∧ (0 : Int) ≤ 3 ∧
      (7 : Int) ≠ apc0.op ∧ apc0.setapply 3 5 9 = some (apc1, 9) ∧
      applycache.matchapply { apc1 with op := 7 } 3 5 = some (-1)) ∧
    ((7 : Int) ≠ qcc0.id ∧ qcc0.setquant 3 5 9 = some (qcc1, 9) ∧
      quantcache.matchquant { qcc1 with id := 7 } 3 5 = some (-1)) ∧
    ((7 : Int) ≠ axc0.id ∧ axc0.setappex 3 5 9 = some (axc1, 9) ∧
      appexcache.matchappex { axc1 with id := 7 } 3 5 = some (-1)) ∧
    ((7 : Int) ≠ rpc0.id ∧ rpc0.setreplace 3 9 = some (rpc1, 9) ∧
      replacecache.matchreplace { rpc1 with id := 7 } 3 = some (-1)) :=
  ⟨⟨by decide, by decide, by decide, by decide, by decide,
     C2_discriminant_isolation.1 apc0 3 5 9 7 apc1 9 (by decide) (by decide)
       (by decide) (by decide) (by decide)⟩,
   ⟨by decide, by decide,
     C2_discriminant_isolation.2.1 qcc0 3 5 9 7 qcc1 9 (by decide) (by decide)
       (by decide)⟩,
   ⟨by decide, by decide,
     C2_discriminant_isolation.2.2.1 axc0 3 5 9 7 axc1 9 (by decide) (by decide)
       (by decide) (by decide) (by decide)⟩,
   ⟨by decide, by decide,
     C2_discriminant_isolation.2.2.2 rpc0 3 9 7 rpc1 9 (by decide) (by decide)
       (by decide) (by decide)⟩⟩

/-- **C3**: after `reset()` on a slot table, every lookup for any key made of
node ids, under any discriminant, reports a miss, and the table's capacity
(length) is unchanged by `reset()`. -/
theorem C3_reset_completeness :
    (∀ (bc : applycache) (x y : Int), bc.table ≠ [] → 0 ≤ x →
      bc.reset.matchapply x y = some (-1) ∧ bc.reset.matchnot x = some (-1)) ∧
    (∀ (bc : itecache) (f g h : Int), bc.table ≠ [] → 0 ≤ f →
      bc.reset.matchite f g h = some (-1)) ∧
    (∀ (bc : quantcache) (n v : Int), bc.table ≠ [] → 0 ≤ n →
      bc.reset.matchquant n v = some (-1)) ∧
    (∀ (bc : appexcache) (x y : Int), bc.table ≠ [] → 0 ≤ x →
      bc.reset.matchappex x y = some (-1)) ∧
    (∀ (bc : replacecache) (n : Int), bc.table ≠ [] → 0 ≤ n →
      bc.reset.matchreplace n = some (-1)) ∧
    (∀ bc : data4ncache, bc.reset.table.length = bc.table.length) ∧
    (∀ bc : data3ncache, bc.reset.table.length = bc.table.length) := by
  refine ⟨?_, ?_, ?_, ?_, ?_, reset4_length, reset3_length⟩
  · intro bc x y ht hx
    have hlen : bc.reset.table.length = bc.table.length := reset4_length bc.todata4ncache
    have hne : bc.reset.table ≠ [] := by
      intro hnil
      rw [hnil] at hlen
      exact ht (List.length_eq_zero.mp hlen.symm)
    exact ⟨matchapply_clean _ x y hne (reset4_mem bc.todata4ncache) hx,
           matchnot_clean _ x hne (reset4_mem bc.todata4ncache) hx⟩
  · intro bc f g h ht hf
    have hlen : bc.reset.table.length = bc.table.length := reset4_length bc.todata4ncache
    have hne : bc.reset.table ≠ [] := by
      intro hnil
      rw [hnil] at hlen
      exact ht (List.length_eq_zero.mp hlen.symm)
    exact matchite_clean _ f g h hne (reset4_mem bc.todata4ncache) hf
  · intro bc n v ht hn
    have hlen : bc.reset.table.length = bc.table.length := reset4_length bc.todata4ncache
    have hne : bc.reset.table ≠ [] := by
      intro hnil
      rw [hnil] at hlen
      exact ht (List.length_eq_zero.mp hlen.symm)
    exact matchquant_clean _ n v hne (reset4_mem bc.todata4ncache) hn
  · intro bc x y ht hx
    have hlen : bc.reset.table.length = bc.table.length := reset4_length bc.todata4ncache
    have hne : bc.reset.table ≠ [] := by
      intro hnil
      rw [hnil] at hlen
      exact ht (List.length_eq_zero.mp hlen.symm)
    exact matchappex_clean _ x y hne (reset4_mem bc.todata4ncache) hx
  · intro bc n ht hn
    have hlen : bc.reset.table.length = bc.table.length := reset3_length bc.todata3ncache
    have hne : bc.reset.table ≠ [] := by
      intro hnil
      rw [hnil] at hlen
      exact ht (List.length_eq_zero.mp hlen.symm)
    exact matchreplace_clean _ n hne (reset3_mem bc.todata3ncache) hn

/-- Closed-input instance of `C3_reset_completeness` on caches holding a live
entry before the reset. -/
theorem C3_reset_completeness_witness :
    (apc1.table ≠ [] ∧ (0 : Int) ≤ 3 ∧
      apc1.reset.matchapply 3 5 = some (-1) ∧ apc1.reset.matchnot 3 = some (-1)) ∧
    itc0.reset.matchite 2 3 4 = some (-1) ∧
    qcc1.reset.matchquant 3 5 = some (-1) ∧
    axc1.reset.matchappex 3 5 = some (-1) ∧
    rpc1.reset.matchreplace 3 = some (-1) ∧
    apc1.todata4ncache.reset.table.length = apc1.todata4ncache.table.length ∧
    rpc1.todata3ncache.reset.table.length = rpc1.todata3ncache.table.length :=
  ⟨⟨by decide, by decide,
     C3_reset_completeness.1 apc1 3 5 (by decide) (by decide)⟩,
   C3_reset_completeness.2.1 itc0 2 3 4 (by decide) (by decide),
   C3_reset_completeness.2.2.1 qcc1 3 5 (by decide) (by decide),
   C3_reset_completeness.2.2.2.1 axc1 3 5 (by decide) (by decide),
   C3_reset_completeness.2.2.2.2.1 rpc1 3 (by decide) (by decide),
   C3_reset_completeness.2.2.2.2.2.1 apc1.todata4ncache,
   C3_reset_completeness.2.2.2.2.2.2 rpc1.todata3ncache⟩

/-- **C4**: for every slot table, `resize(n)` with `ratio > 0` reallocates the
table so its capacity is the smallest prime `≥ n / ratio` and every prior entry
subsequently reports a miss; `resize(n)` with `ratio = 0` leaves the capacity
unchanged and only invalidates all entries. -/
theorem C4_resize_invalidation :
    (∀ (bc : data4ncache) (n : Int), 0 < bc.ratio →
      (bc.resize n).table.length = bdd_prime_gte (goDiv n bc.ratio) ∧
      Nat.Prime (bc.resize n).table.length ∧
      goDiv n bc.ratio ≤ ((bc.resize n).table.length : Int) ∧
      (∀ p : Nat, Nat.Prime p → goDiv n bc.ratio ≤ (p : Int) →
        (bc.resize n).table.length ≤ p) ∧
      (∀ e ∈ (bc.resize n).table, e.a = -1)) ∧
    (∀ (bc : data3ncache) (n : Int), 0 < bc.ratio →
      (bc.resize n).table.length = bdd_prime_gte (goDiv n bc.ratio) ∧
      Nat.Prime (bc.resize n).table.length ∧
      goDiv n bc.ratio ≤ ((bc.resize n).table.length : Int) ∧
      (∀ p : Nat, Nat.Prime p → goDiv n bc.ratio ≤ (p : Int) →
        (bc.resize n).table.length ≤ p) ∧
      (∀ e ∈ (bc.resize n).table, e.a = -1)) ∧
    (∀ (bc : data4ncache) (n : Int), bc.ratio = 0 →
      (bc.resize n).table.length = bc.table.length ∧ (bc.resize n).ratio = bc.ratio ∧
      (∀ e ∈ (bc.resize n).table, e.a = -1)) ∧
    (∀ (bc : data3ncache) (n : Int), bc.ratio = 0 →
      (bc.resize n).table.length = bc.table.length ∧ (bc.resize n).ratio = bc.ratio ∧
      (∀ e ∈ (bc.resize n).table, e.a = -1)) ∧
    (∀ (bc : applycache) (n x y : Int), (0 < bc.ratio ∨ bc.table ≠ []) → 0 ≤ x →
      (bc.resize n).matchapply x y = some (-1) ∧ (bc.resize n).matchnot x = some (-1)) ∧
    (∀ (bc : itecache) (n f g h : Int), (0 < bc.ratio ∨ bc.table ≠ []) → 0 ≤ f →
      (bc.resize n).matchite f g h = some (-1)) ∧
    (∀ (bc : quantcache) (n m v : Int), (0 < bc.ratio ∨ bc.table ≠ []) → 0 ≤ m →
      (bc.resize n).matchquant m v = some (-1)) ∧
    (∀ (bc : appexcache) (n x y : Int), (0 < bc.ratio ∨ bc.table ≠ []) → 0 ≤ x →
      (bc.resize n).matchappex x y = some (-1)) ∧
    (∀ (bc : replacecache) (n m : Int), (0 < bc.ratio ∨ bc.table ≠ []) → 0 ≤ m →
      (bc.resize n).matchreplace m = some (-1)) := by
  refine ⟨?_, ?_, ?_, ?_, ?_, ?_, ?_, ?_, ?_⟩
  · intro bc n hr
    have hlen := resize4_length_pos bc n hr
    refine ⟨hlen, ?_, ?_, ?_, resize4_clean bc n⟩
    · rw [hlen]
      exact bdd_prime_gte_prime _
    · rw [hlen]
      exact bdd_prime_gte_ge _
    · intro p hp hnp
      rw [hlen]
      exact bdd_prime_gte_min _ p hp hnp
  · intro bc n hr
    have hlen := resize3_length_pos bc n hr
    refine ⟨hlen, ?_, ?_, ?_, resize3_clean bc n⟩
    · rw [hlen]
      exact bdd_prime_gte_prime _
    · rw [hlen]
      exact bdd_prime_gte_ge _
    · intro p hp hnp
      rw [hlen]
      exact bdd_prime_gte_min _ p hp hnp
  · intro bc n hr
    refine ⟨resize4_length_zero bc n hr, ?_, resize4_clean bc n⟩
    rw [data4ncache.resize, if_neg (by omega), data4ncache.reset]
  · intro bc n hr
    refine ⟨resize3_length_zero bc n hr, ?_, resize3_clean bc n⟩
    rw [data3ncache.resize, if_neg (by omega), data3ncache.reset]
  · intro bc n x y hc hx
    have hne : (bc.resize n).table ≠ [] := resize4_ne_nil bc.todata4ncache n hc
    exact ⟨matchapply_clean _ x y hne (resize4_clean bc.todata4ncache n) hx,
           matchnot_clean _ x hne (resize4_clean bc.todata4ncache n) hx⟩
  · intro bc n f g h hc hf
    have hne : (bc.resize n).table ≠ [] := resize4_ne_nil bc.todata4ncache n hc
    exact matchite_clean _ f g h hne (resize4_clean bc.todata4ncache n) hf
  · intro bc n m v hc hm
    have hne : (bc.resize n).table ≠ [] := resize4_ne_nil bc.todata4ncache n hc
    exact matchquant_clean _ m v hne (resize4_clean bc.todata4ncache n) hm
  · intro bc n x y hc hx
    have hne : (bc.resize n).table ≠ [] := resize4_ne_nil bc.todata4ncache n hc
    exact matchappex_clean _ x y hne (resize4_clean bc.todata4ncache n) hx
  · intro bc n m hc hm
    have hne : (bc.resize n).table ≠ [] := resize3_ne_nil bc.todata3ncache n hc
    exact matchreplace_clean _ m hne (resize3_clean bc.todata3ncache n) hm

/-- Closed-input instance of `C4_resize_invalidation`: resizing a ratio-2 cache
to node count 10 gives the smallest prime at least `10 / 2 = 5`, and resizing
fixed-size caches with live entries loses those entries. -/
theorem C4_resize_invalidation_witness :
    (0 < apc2.todata4ncache.ratio ∧
      (apc2.todata4ncache.resize 10).table.length =
        bdd_prime_gte (goDiv 10 apc2.todata4ncache.ratio) ∧
      Nat.Prime (apc2.todata4ncache.resize 10).table.length) ∧
    (rpc1.todata3ncache.ratio = 0 ∧
      (rpc1.todata3ncache.resize 10).table.length = rpc1.todata3ncache.table.length) ∧
    ((0 < apc1.ratio ∨ apc1.table ≠ []) ∧ (0 : Int) ≤ 3 ∧
      (apc1.resize 10).matchapply 3 5 = some (-1) ∧
      (apc1.resize 10).matchnot 3 = some (-1)) ∧
    (itc0.resize 10).matchite 2 3 4 = some (-1) ∧
    (qcc1.resize 10).matchquant 3 5 = some (-1) ∧
    (axc1.resize 10).matchappex 3 5 = some (-1) ∧
    ((0 < rpc1.ratio ∨ rpc1.table ≠ []) ∧
      (rpc1.resize 10).matchreplace 3 = some (-1)) :=
  ⟨⟨by decide, (C4_resize_invalidation.1 apc2.todata4ncache 10 (by decide)).1,
     (C4_resize_invalidation.1 apc2.todata4ncache 10 (by decide)).2.1⟩,
   ⟨by decide, (C4_resize_invalidation.2.2.2.1 rpc1.todata3ncache 10 (by decide)).1⟩,
   ⟨by decide, by decide,
     (C4_resize_invalidation.2.2.2.2.1 apc1 10 3 5 (by decide) (by decide)).1,
     (C4_resize_invalidation.2.2.2.2.1 apc1 10 3 5 (by decide) (by decide)).2⟩,
   C4_resize_invalidation.2.2.2.2.2.1 itc0 10 2 3 4 (by decide) (by decide),
   C4_resize_invalidation.2.2.2.2.2.2.1 qcc1 10 3 5 (by decide) (by decide),
   C4_resize_invalidation.2.2.2.2.2.2.2.1 axc1 10 3 5 (by decide) (by decide),
   ⟨by decide,
     C4_resize_invalidation.2.2.2.2.2.2.2.2 rpc1 10 3 (by decide) (by decide)⟩⟩

/-- **C5**: the quantification generation counter strictly increases on each
successful `registerVarset` (`quantset2cache`) call until it reaches its maximum
representable value (`math.MaxInt32`), at which point the register is
reallocated to all-zero and the counter restarts at 1; consequently, after a
wrapping call every register entry is either 0 (unmarked) or the new counter
value — no pre-wrap generation id survives to match the post-wrap counter. -/
theorem C5_generation_monotonicity (b : buddy) (fuel : Nat) (n : Int) (b2 : buddy)
    (hq : b.quantset2cache fuel n = some (b2, false)) :
    (b.quantsetID + 1 ≠ maxInt32 →
      b2.quantsetID = b.quantsetID + 1 ∧ b.quantsetID < b2.quantsetID) ∧
    (b.quantsetID + 1 = maxInt32 →
      b2.quantsetID = 1 ∧ ∀ v ∈ b2.quantset, v = 0 ∨ v = b2.quantsetID) := by
  rw [buddy.quantset2cache] at hq
  split at hq
  · injection hq with hq
    injection hq with h1 h2
    cases h2
  · rw [Option.map_eq_some'] at hq
    obtain ⟨r, hwalk, heq⟩ := hq
    injection heq with hb hflag
    subst hb
    constructor
    · intro hne
      have hid : nextID b = b.quantsetID + 1 := by rw [nextID, if_neg hne]
      refine ⟨hid, ?_⟩
      show b.quantsetID < nextID b
      omega
    · intro heq2
      have hid : nextID b = 1 := by rw [nextID, if_pos heq2]
      have hset : nextSet b = List.replicate b.varnum 0 := by
        rw [nextSet, if_pos heq2]
      refine ⟨hid, ?_⟩
      have hvals : ∀ v ∈ r.1, v = 0 ∨ v = nextID b := by
        refine quantWalk_values b.nodes (nextID b) fuel n (nextSet b) b.quantlast
          r.1 r.2 hwalk ?_
        intro v hv
        rw [hset] at hv
        exact Or.inl (List.eq_of_mem_replicate hv)
      intro v hv
      rcases hvals v hv with h | h
      · exact Or.inl h
      · exact Or.inr h

/-- Closed-input instance of `C5_generation_monotonicity`. -/
theorem C5_generation_monotonicity_witness :
    b0.quantset2cache 5 3 = some (b1, false) ∧
    ((b0.quantsetID + 1 ≠ maxInt32 →
        b1.quantsetID = b0.quantsetID + 1 ∧ b0.quantsetID < b1.quantsetID) ∧
     (b0.quantsetID + 1 = maxInt32 →
        b1.quantsetID = 1 ∧ ∀ v ∈ b1.quantset, v = 0 ∨ v = b1.quantsetID)) :=
  ⟨by decide, C5_generation_monotonicity b0 5 3 b1 (by decide)⟩

/-- **C6**: after a successful `registerVarset` (`quantset2cache`) call on a
non-terminal chain head whose chain visits the (BDD-ordered, strictly
increasing) levels `ls`, every visited level is marked in the register with the
current generation id, and `quantlast` holds the maximal level visited. -/
theorem C6_chain_marking (b : buddy) (fuel : Nat) (n : Int) (b2 : buddy)
    (ls : List Int) (hch : chainLevels b.nodes fuel n = some ls)
    (hsorted : List.Chain' (· < ·) ls)
    (hq : b.quantset2cache fuel n = some (b2, false)) :
    (∀ lv ∈ ls, listGetI b2.quantset lv = some b2.quantsetID) ∧
    b2.quantlast ∈ ls ∧ (∀ lv ∈ ls, lv ≤ b2.quantlast) := by
  rw [buddy.quantset2cache] at hq
  split at hq
  · injection hq with hq
    injection hq with h1 h2
    cases h2
  · rename_i hn
    rw [Option.map_eq_some'] at hq
    obtain ⟨r, hwalk, heq⟩ := hq
    injection heq with hb hflag
    subst hb
    rw [quantWalk_eq_markList b.nodes (nextID b) fuel n (nextSet b) b.quantlast
      ls hch] at hwalk
    have hmarks := markList_marks (nextID b) ls (nextSet b) b.quantlast r.1 r.2 hwalk
    have hlast := markList_last (nextID b) ls (nextSet b) b.quantlast r.1 r.2 hwalk
    have hnil : ls ≠ [] := chainLevels_ne_nil b.nodes fuel n ls (by omega) hch
    refine ⟨hmarks, ?_, ?_⟩
    · show r.2 ∈ ls
      rw [hlast]
      exact getLastD_mem ls b.quantlast hnil
    · intro lv hlv
      show lv ≤ r.2
      rw [hlast]
      exact chain_le_getLastD ls b.quantlast hsorted lv hlv

/-- Closed-input instance of `C6_chain_marking`: the chain headed at node 3 of
`b0` visits levels 0 and 1. -/
theorem C6_chain_marking_witness :
    chainLevels b0.nodes 5 3 = some [0, 1] ∧
    List.Chain' (· < ·) [(0 : Int), 1] ∧
    b0.quantset2cache 5 3 = some (b1, false) ∧
    ((∀ lv ∈ [(0 : Int), 1], listGetI b1.quantset lv = some b1.quantsetID) ∧
     b1.quantlast ∈ [(0 : Int), 1] ∧ ∀ lv ∈ [(0 : Int), 1], lv ≤ b1.quantlast) :=
  ⟨by decide, by norm_num [List.chain'_cons], by decide,
   C6_chain_marking b0 5 3 b1 [0, 1] (by decide) (by norm_num [List.chain'_cons])
     (by decide)⟩

/-- **C7**: `registerVarset` (`quantset2cache`) fails with the "illegal variable
set" error if and only if the chain head it is given is one of the two terminal
nodes (node id 0 or 1); for any chain head that is a real variable node (and a
terminating, in-bounds chain walk) it returns successfully. -/
theorem C7_varset_error_iff_terminal (b : buddy) (fuel : Nat) (n : Int)
    (hn : 0 ≤ n) :
    ((n = 0 ∨ n = 1) → ∃ b2, b.quantset2cache fuel n = some (b2, true)) ∧
    (2 ≤ n →
      (quantWalk b.nodes (nextID b) fuel n (nextSet b) b.quantlast).isSome →
      ∃ b2, b.quantset2cache fuel n = some (b2, false)) ∧
    (∀ (b2 : buddy) (e : Bool), b.quantset2cache fuel n = some (b2, e) →
      (e = true ↔ (n = 0 ∨ n = 1))) := by
  refine ⟨?_, ?_, ?_⟩
  · intro hcase
    exact ⟨_, by rw [buddy.quantset2cache, if_pos (show n < 2 by omega)]⟩
  · intro h2 hsome
    obtain ⟨r, hw⟩ := Option.isSome_iff_exists.mp hsome
    exact ⟨_, by rw [buddy.quantset2cache, if_neg (by omega), hw]; rfl⟩
  · intro b2 e hq
    rw [buddy.quantset2cache] at hq
    split at hq
    · rename_i hlt
      injection hq with hq
      injection hq with h1 h2
      subst h2
      constructor
      · intro _
        omega
      · intro _
        rfl
    · rename_i hlt
      rw [Option.map_eq_some'] at hq
      obtain ⟨r, hw, heq⟩ := hq
      injection heq with hb hflag
      subst hflag
      constructor
      · intro hc
        cases hc
      · intro hc
        exact absurd hc (by omega)

/-- Closed-input instance of `C7_varset_error_iff_terminal`: head 3 (a variable
node) succeeds, head 1 (a terminal) errors. -/
theorem C7_varset_error_iff_terminal_witness :
    ((0 : Int) ≤ 3 ∧ 2 ≤ (3 : Int) ∧
      (quantWalk b0.nodes (nextID b0) 5 3 (nextSet b0) b0.quantlast).isSome ∧
      (∃ b2, b0.quantset2cache 5 3 = some (b2, false))) ∧
    ((0 : Int) ≤ 1 ∧ ((1 : Int) = 0 ∨ (1 : Int) = 1) ∧
      ∃ b2, b0.quantset2cache 5 1 = some (b2, true)) :=
  ⟨⟨by decide, by decide, by decide,
     (C7_varset_error_iff_terminal b0 5 3 (by decide)).2.1 (by decide) (by decide)⟩,
   ⟨by decide, by decide,
     (C7_varset_error_iff_terminal b0 5 1 (by decide)).1 (by decide)⟩⟩

/-- **C8**: `resetAll` (`cachereset`) invalidates all five specialized caches
and leaves everything else unchanged: the variable-set register (`quantset`),
its generation counter (`quantsetID`), `quantlast`, and each cache's capacity,
ratio, discriminant fields and counters are not modified. -/
theorem C8_cachereset_frame (b : buddy) :
    b.cachereset.quantset = b.quantset ∧
    b.cachereset.quantsetID = b.quantsetID ∧
    b.cachereset.quantlast = b.quantlast ∧
    b.cachereset.varnum = b.varnum ∧
    b.cachereset.nodes = b.nodes ∧
    b.cachereset.error = b.error ∧
    b.cachereset.applycache.op = b.applycache.op ∧
    b.cachereset.quantcache.id = b.quantcache.id ∧
    b.cachereset.appexcache.op = b.appexcache.op ∧
    b.cachereset.appexcache.id = b.appexcache.id ∧
    b.cachereset.replacecache.id = b.replacecache.id ∧
    b.cachereset.applycache.ratio = b.applycache.ratio ∧
    b.cachereset.itecache.ratio = b.itecache.ratio ∧
    b.cachereset.quantcache.ratio = b.quantcache.ratio ∧
    b.cachereset.appexcache.ratio = b.appexcache.ratio ∧
    b.cachereset.replacecache.ratio = b.replacecache.ratio ∧
    b.cachereset.applycache.opHit = b.applycache.opHit ∧
    b.cachereset.applycache.opMiss = b.applycache.opMiss ∧
    b.cachereset.applycache.table.length = b.applycache.table.length ∧
    b.cachereset.itecache.table.length = b.itecache.table.length ∧
    b.cachereset.quantcache.table.length = b.quantcache.table.length ∧
    b.cachereset.appexcache.table.length = b.appexcache.table.length ∧
    b.cachereset.replacecache.table.length = b.replacecache.table.length ∧
    (∀ e ∈ b.cachereset.applycache.table, e.a = -1) ∧
    (∀ e ∈ b.cachereset.itecache.table, e.a = -1) ∧
    (∀ e ∈ b.cachereset.quantcache.table, e.a = -1) ∧
    (∀ e ∈ b.cachereset.appexcache.table, e.a = -1) ∧
    (∀ e ∈ b.cachereset.replacecache.table, e.a = -1) :=
  ⟨rfl, rfl, rfl, rfl, rfl, rfl, rfl, rfl, rfl, rfl, rfl, rfl, rfl, rfl, rfl,
   rfl, rfl, rfl,
   reset4_length b.applycache.todata4ncache, reset4_length b.itecache.todata4ncache,
   reset4_length b.quantcache.todata4ncache, reset4_length b.appexcache.todata4ncache,
   reset3_length b.replacecache.todata3ncache,
   reset4_mem b.applycache.todata4ncache, reset4_mem b.itecache.todata4ncache,
   reset4_mem b.quantcache.todata4ncache, reset4_mem b.appexcache.todata4ncache,
   reset3_mem b.replacecache.todata3ncache⟩

/-- **C9**: the unary-keyed operations `matchnot`, `setnot`, `matchreplace`,
`setreplace` index the table by `n % capacity` (Go remainder, negative for
negative `n`); under the precondition `0 ≤ n` and a non-empty table every such
access is in bounds (no panic), the index being in `[0, capacity)`; the miss
sentinel `-1` violates the precondition, and passing it on a table of length at
least 2 indexes out of bounds (a panic, modelled as `none`). -/
theorem C9_unary_index_bounds :
    (∀ (n len : Int), 0 ≤ n → 0 < len → 0 ≤ goMod n len ∧ goMod n len < len) ∧
    (∀ (bc : applycache) (n : Int), 0 ≤ n → bc.table ≠ [] →
      (bc.matchnot n).isSome ∧ ∀ r, (bc.setnot n r).isSome) ∧
    (∀ (bc : replacecache) (n : Int), 0 ≤ n → bc.table ≠ [] →
      (bc.matchreplace n).isSome ∧ ∀ r, (bc.setreplace n r).isSome) ∧
    ¬ (0 ≤ (-1 : Int)) ∧
    (∀ bc : applycache, 2 ≤ bc.table.length → bc.matchnot (-1) = none) := by
  refine ⟨?_, ?_, ?_, by omega, matchnot_neg_one⟩
  · intro n len hn hl
    exact ⟨Int.tmod_nonneg _ hn, Int.tmod_lt_of_pos n hl⟩
  · intro bc n hn ht
    have hlen : 0 < bc.table.length := List.length_pos.mpr ht
    obtain ⟨h0, h1⟩ := goMod_bounds n bc.table.length hn hlen
    constructor
    · rw [applycache.matchnot]
      obtain ⟨e, hget, _⟩ := listGetI_mem bc.table _ h0 h1
      rw [hget]
      rfl
    · intro r
      rw [applycache.setnot, listSetI_eq_some _ _ _ h0 h1]
      rfl
  · intro bc n hn ht
    have hlen : 0 < bc.table.length := List.length_pos.mpr ht
    obtain ⟨h0, h1⟩ := goMod_bounds n bc.table.length hn hlen
    constructor
    · rw [replacecache.matchreplace]
      obtain ⟨e, hget, _⟩ := listGetI_mem bc.table _ h0 h1
      rw [hget]
      rfl
    · intro r
      rw [replacecache.setreplace, listSetI_eq_some _ _ _ h0 h1]
      rfl

/-- Closed-input instance of `C9_unary_index_bounds`. -/
theorem C9_unary_index_bounds_witness :
    ((0 : Int) ≤ 5 ∧ (0 : Int) < 3 ∧ 0 ≤ goMod 5 3 ∧ goMod 5 3 < 3) ∧
    (apc0.table ≠ [] ∧ (apc0.matchnot 5).isSome ∧ (apc0.setnot 5 9).isSome) ∧
    (rpc0.table ≠ [] ∧ (rpc0.matchreplace 5).isSome ∧ (rpc0.setreplace 5 9).isSome) ∧
    ¬ (0 ≤ (-1 : Int)) ∧
    (2 ≤ apc0.table.length ∧ apc0.matchnot (-1) = none) :=
  ⟨⟨by decide, by decide, (C9_unary_index_bounds.1 5 3 (by decide) (by decide)).1,
     (C9_unary_index_bounds.1 5 3 (by decide) (by decide)).2⟩,
   ⟨by decide, (C9_unary_index_bounds.2.1 apc0 5 (by decide) (by decide)).1,
     (C9_unary_index_bounds.2.1 apc0 5 (by decide) (by decide)).2 9⟩,
   ⟨by decide, (C9_unary_index_bounds.2.2.1 rpc0 5 (by decide) (by decide)).1,
     (C9_unary_index_bounds.2.2.1 rpc0 5 (by decide) (by decide)).2 9⟩,
   C9_unary_index_bounds.2.2.2.1,
   ⟨by decide, C9_unary_index_bounds.2.2.2.2 apc0 (by decide)⟩⟩

/-- **C10**: when `registerVarset` (`quantset2cache`) returns an error (chain
head `n < 2`), the whole quantification state is unchanged: `quantsetID` is not
incremented, no level of `quantset` is marked, and `quantlast` keeps its
previous value. -/
theorem C10_error_state_frame (b : buddy) (fuel : Nat) (n : Int) (hn : n < 2) :
    ∃ b2, b.quantset2cache fuel n = some (b2, true) ∧
      b2.quantsetID = b.quantsetID ∧ b2.quantset = b.quantset ∧
      b2.quantlast = b.quantlast :=
  ⟨{ b with error := some "Illegal variable in varset to cache" },
   by rw [buddy.quantset2cache, if_pos hn], rfl, rfl, rfl⟩

/-- Closed-input instance of `C10_error_state_frame`. -/
theorem C10_error_state_frame_witness :
    (1 : Int) < 2 ∧
    ∃ b2, b0.quantset2cache 5 1 = some (b2, true) ∧
      b2.quantsetID = b0.quantsetID ∧ b2.quantset = b0.quantset ∧
      b2.quantlast = b0.quantlast :=
  ⟨by decide, C10_error_state_frame b0 5 1 (by decide)⟩

end Rudd
